import Mathlib

/-!
Verification of the transcript-analysis script `src/server/youtube-analyzer.py`.

Python strings are modelled as lists of characters (the ASCII fragment that
the script manipulates).  The two external services — transcript retrieval
and the chat-completion endpoint — are parameters of the embedding: the
completion service is a function from the submitted prompt to either a
response text or an exception message, and the fetch step is an
`Except`-valued outcome describing the shape that `main` then probes.
-/

/-- Python strings, modelled as lists of characters. -/
abbrev PyStr := List Char

/-- Character list of a Lean string literal. -/
def lit (s : String) : PyStr := s.toList

/-- Python `str.lower`, characterwise over the ASCII range. -/
def lowerL (s : PyStr) : PyStr := s.map Char.toLower

/-- Decimal-digit test, the ASCII reading of the regex digit class. -/
def isDigitC (c : Char) : Bool := 48 ≤ c.toNat && c.toNat ≤ 57

/-- Whitespace stripped by Python `str.strip` (ASCII fragment). -/
def isPyWS (c : Char) : Bool :=
  c == ' ' || c == '\t' || c == '\n' || c == '\r' || c == '\x0b' || c == '\x0c'

/-- Maximal run of decimal digits at the head of a string. -/
def takeDigits : PyStr → PyStr
  | [] => []
  | c :: rest => if isDigitC c then c :: takeDigits rest else []

/-- Leftmost maximal digit run of a string, as found by `re.search` with a
one-group digit-run pattern (source line 165). -/
def firstDigitRun : PyStr → Option PyStr
  | [] => none
  | c :: rest => if isDigitC c then some (c :: takeDigits rest) else firstDigitRun rest

/-- Python `int` applied to a run of decimal digits. -/
def digitsToInt (ds : PyStr) : Int :=
  ds.foldl (fun n c => n * 10 + ((c.toNat : Int) - 48)) 0

/-- Bool test that `pat` occurs at the very start of `s`. -/
def isPrefixOfC : PyStr → PyStr → Bool
  | [], _ => true
  | _ :: _, [] => false
  | a :: as, b :: bs => if a = b then isPrefixOfC as bs else false

/-- Python substring containment, `pat in s`. -/
def containsSub (pat : PyStr) : PyStr → Bool
  | [] => isPrefixOfC pat []
  | c :: rest => isPrefixOfC pat (c :: rest) || containsSub pat rest

/-- Source lines 160-167: the score defaults to 5; when the lowered response
contains "toxicity score", the first digit run anywhere in the (unlowered)
response is parsed as the score; if no digit occurs the default stands. -/
def extractToxicityScore (analysis : PyStr) : Int :=
  if containsSub (lit "toxicity score") (lowerL analysis) then
    match firstDigitRun analysis with
    | some ds => digitsToInt ds
    | none => 5
  else 5

/-- The fixed bias vocabulary, in the checking order of lines 172-179. -/
def biasVocab : List String := ["Political", "Cultural", "Gender", "Racial"]

/-- Source lines 169-179: no tags unless the lowered response contains
"bias"; otherwise each category keyword found appends its tag, in the fixed
order Political, Cultural, Gender, Racial. -/
def extractBiasTags (analysis : PyStr) : List String :=
  if containsSub (lit "bias") (lowerL analysis) then
    (if containsSub (lit "political") (lowerL analysis) then ["Political"] else []) ++
    (if containsSub (lit "cultural") (lowerL analysis) then ["Cultural"] else []) ++
    (if containsSub (lit "gender") (lowerL analysis) then ["Gender"] else []) ++
    (if containsSub (lit "racial") (lowerL analysis) then ["Racial"] else [])
  else []

/-- One element of a transcript list: a mapping with optional text/start
keys, or an attribute-bearing object whose Python string form is `reprStr`.
Text values are taken to be strings, as the script assumes. -/
inductive PyEntry where
  | dict (text? : Option String) (start? : Option Int)
  | obj (text? : Option String) (start? : Option Int) (reprStr : String)
deriving DecidableEq

/-- Text contributed by one entry in `get_full_transcript_text`
(source lines 32-36): a mapping uses its text value, defaulting to the
empty string; any other entry uses its text attribute if present, else the
string form of the entry itself. -/
def entryText : PyEntry → PyStr
  | .dict t? _ => (t?.getD "").toList
  | .obj t? _ r => (t?.getD r).toList

/-- Python strip of leading and trailing whitespace. -/
def stripL (s : PyStr) : PyStr :=
  ((s.reverse.dropWhile isPyWS).reverse).dropWhile isPyWS

/-- Source lines 28-37: append each entry text followed by one space, then
strip the accumulated string. -/
def get_full_transcript_text (transcript : List PyEntry) : PyStr :=
  stripL (transcript.foldl (fun acc e => acc ++ entryText e ++ [' ']) [])

/-- Prompt text preceding the embedded transcript (source lines 42-49). -/
def promptHead : PyStr := lit "Analyze the following YouTube video transcript for:\n\n1. **Toxicity**: Check for hate speech, harassment, profanity, threats, or harmful content\n2. **Bias**: Identify any political, cultural, gender, racial, or ideological biases\n3. **Misinformation**: Look for false claims, misleading statements, or unverified facts\n\nTranscript:\n"

/-- Prompt text following the embedded transcript (source lines 49-57). -/
def promptTail : PyStr := lit "  \n\nPlease provide:\n- A toxicity score (0-10, where 10 is highly toxic)\n- A bias assessment (types of bias detected and severity)\n- A misinformation assessment (potential false claims identified)\n- An overall summary\n\nFormat your response as a structured analysis."

/-- Source line 49: the prompt embeds only the first 4000 characters of the
transcript text. -/
def buildPrompt (transcript_text : PyStr) : PyStr :=
  promptHead ++ transcript_text.take 4000 ++ promptTail

/-- Source lines 39-73: build the prompt and call the completion service;
an exception with message `e` is converted into the in-band error string
rather than propagated. -/
def analyze_content (svc : PyStr → Except PyStr PyStr)
    (transcript_text video_id : PyStr) : PyStr :=
  match svc (buildPrompt transcript_text) with
  | Except.ok content => content
  | Except.error e => lit "Error analyzing content: " ++ e

/-- The fixed placeholder emotion constants of lines 190-198 (floats in the
source, modelled as exact rationals). -/
def emotionsConst : List (String × Rat) :=
  [("anger", 3/10), ("joy", 4/10), ("trust", 5/10), ("fear", 2/10),
   ("sadness", 3/10), ("surprise", 4/10), ("disgust", 2/10)]

/-- The output schema assembled at lines 182-200 and 208-226. -/
structure AnalysisResult where
  videoId : PyStr
  title : PyStr
  channelName : PyStr
  publishDate : PyStr
  thumbnail : PyStr
  toxicityScore : Int
  biasTags : List String
  emotions : List (String × Rat)
  analysis : PyStr
deriving DecidableEq

/-- Lines 182-200: the normally assembled record. -/
def buildFullRecord (video_id analysis : PyStr) : AnalysisResult where
  videoId := video_id
  title := lit "Video " ++ video_id
  channelName := lit "Unknown Channel"
  publishDate := lit "2024-01-01T00:00:00Z"
  thumbnail := lit "https://img.youtube.com/vi/" ++ video_id ++ lit "/maxresdefault.jpg"
  toxicityScore := extractToxicityScore analysis
  biasTags := extractBiasTags analysis
  emotions := emotionsConst
  analysis := analysis

/-- Lines 208-226: the fallback record printed when assembling the
structured result raises. -/
def fallbackRecord (video_id analysis : PyStr) : AnalysisResult where
  videoId := video_id
  title := lit "Video " ++ video_id
  channelName := lit "Unknown Channel"
  publishDate := lit "2024-01-01T00:00:00Z"
  thumbnail := lit "https://img.youtube.com/vi/" ++ video_id ++ lit "/maxresdefault.jpg"
  toxicityScore := 5
  biasTags := ["Unknown"]
  emotions := emotionsConst
  analysis := analysis

/-- Lines 160-227: the try/except around score extraction, record assembly
and serialization; the flag records whether that block raised. -/
def resultStep (assembleRaised : Bool) (video_id analysis : PyStr) : AnalysisResult :=
  match assembleRaised with
  | true => fallbackRecord video_id analysis
  | false => buildFullRecord video_id analysis

/-- Shape of a successfully fetched result list, as `main` probes it on the
first element (lines 98-126): the list is empty; the first element's dict
view has a tracks key (each track a mapping with an optional transcript
key, line 118); the first element only has a tracks attribute, whose first
track is indexed and subscripted (line 123, so an empty list or a missing
transcript key raises); or the list itself is the entry list. -/
inductive FetchOk where
  | empty
  | wrapperDict (tracks : List (Option (List PyEntry)))
  | wrapperAttr (tracks : List (Option (List PyEntry)))
  | plainEntries (first : PyEntry) (rest : List PyEntry)
deriving DecidableEq

/-- The JSON document a run prints, if any. -/
inductive MainOutput where
  | noOutput
  | errRec (error videoId : PyStr)
  | fullRec (r : AnalysisResult)
deriving DecidableEq

/-- Lines 144-227: concatenate the transcript, analyze it, normalize the
response and print the structured record. -/
def pipelineTail (video_id : PyStr) (svc : PyStr → Except PyStr PyStr)
    (assembleRaised : Bool) (transcript : List PyEntry) : MainOutput :=
  MainOutput.fullRec (resultStep assembleRaised video_id
    (analyze_content svc (get_full_transcript_text transcript) video_id))

/-- The body of `main` from the fetch call onward (lines 85-247): a raised
fetch becomes the failure record; an empty result list becomes the
no-transcript failure record; a present-but-empty tracks list returns with
no output (lines 119-121); the attribute-tracks shape propagates its
indexing errors to the outer handler; otherwise the pipeline runs on the
selected entry list. -/
def mainRun (video_id : PyStr) (svc : PyStr → Except PyStr PyStr)
    (assembleRaised : Bool) (fetched : Except PyStr FetchOk) : MainOutput :=
  match fetched with
  | Except.error e => MainOutput.errRec (lit "Analysis failed: " ++ e) video_id
  | Except.ok FetchOk.empty =>
      MainOutput.errRec (lit "No transcript data returned") video_id
  | Except.ok (FetchOk.wrapperDict []) => MainOutput.noOutput
  | Except.ok (FetchOk.wrapperDict (t :: _)) =>
      pipelineTail video_id svc assembleRaised (t.getD [])
  | Except.ok (FetchOk.wrapperAttr []) =>
      MainOutput.errRec (lit "Analysis failed: list index out of range") video_id
  | Except.ok (FetchOk.wrapperAttr (none :: _)) =>
      MainOutput.errRec (lit "Analysis failed: \x27transcript\x27") video_id
  | Except.ok (FetchOk.wrapperAttr (some tr :: _)) =>
      pipelineTail video_id svc assembleRaised tr
  | Except.ok (FetchOk.plainEntries e es) =>
      pipelineTail video_id svc assembleRaised (e :: es)

/-- Spec-side predicate: `ds` is the leftmost maximal run of decimal digits
occurring in `s`. -/
def IsLeftmostDigitRun (s ds : PyStr) : Prop :=
  ds ≠ [] ∧ (∀ c ∈ ds, isDigitC c = true) ∧
  ∃ pre post, s = pre ++ ds ++ post ∧ (∀ c ∈ pre, isDigitC c = false) ∧
    ∀ c ∈ post.take 1, isDigitC c = false

/-- Spec-side normalizer for bias tags: the subsequence of the vocabulary
whose lowercase category word occurs in the lowered response, gated on the
response containing "bias". -/
def specBiasTags (analysis : PyStr) : List String :=
  if containsSub (lit "bias") (lowerL analysis) then
    biasVocab.filter (fun tag => containsSub (lowerL (lit tag)) (lowerL analysis))
  else []

/-- Entry-text extraction exactly as the claimed contract words it: both
shapes default to the empty string when no text is present. -/
def entryTextClaim : PyEntry → PyStr
  | .dict t? _ => (t?.getD "").toList
  | .obj t? _ _ => (t?.getD "").toList

/-- Amended entry-text extraction: mapping entries default to the empty
string; attribute entries without a text attribute fall back to the string
form of the entry itself. -/
def entryTextAmended : PyEntry → PyStr
  | .dict t? _ => (t?.getD "").toList
  | .obj (some t) _ _ => t.toList
  | .obj none _ r => r.toList

/-- Spec-side join of texts by a single separating space. -/
def joinSpace : List PyStr → PyStr
  | [] => []
  | [t] => t
  | t :: u :: rest => t ++ ' ' :: joinSpace (u :: rest)

/-- The concatenation contract exactly as the claim words it. -/
def claimTranscriptText (ts : List PyEntry) : PyStr :=
  stripL (joinSpace (ts.map entryTextClaim))

/-- Join with one trailing space per element, relating the fold of
`get_full_transcript_text` to the spec-side join. -/
def joinTrail : List PyStr → PyStr
  | [] => []
  | t :: rest => t ++ ' ' :: joinTrail rest

theorem takeDigits_all : ∀ (s : PyStr), ∀ c ∈ takeDigits s, isDigitC c = true := by
  intro s
  induction s with
  | nil => intro c hc; simp [takeDigits] at hc
  | cons a rest ih =>
    intro c hc
    by_cases h : isDigitC a
    · simp only [takeDigits, if_pos h] at hc
      rcases List.mem_cons.mp hc with rfl | hc
      · exact h
      · exact ih c hc
    · simp only [takeDigits, if_neg h] at hc
      simp at hc

theorem firstDigitRun_cons_digit (c : Char) (s : PyStr) (h : isDigitC c = true) :
    firstDigitRun (c :: s) = some (c :: takeDigits s) := by
  simp [firstDigitRun, h]

theorem firstDigitRun_cons_nondigit (c : Char) (s : PyStr) (h : isDigitC c = false) :
    firstDigitRun (c :: s) = firstDigitRun s := by
  simp [firstDigitRun, h]

theorem firstDigitRun_all (s ds : PyStr) (h : firstDigitRun s = some ds) :
    ∀ c ∈ ds, isDigitC c = true := by
  induction s with
  | nil => simp [firstDigitRun] at h
  | cons a rest ih =>
    by_cases ha : isDigitC a
    · rw [firstDigitRun_cons_digit a rest ha, Option.some.injEq] at h
      subst h
      intro c hc
      rcases List.mem_cons.mp hc with rfl | hc
      · exact ha
      · exact takeDigits_all rest c hc
    · rw [firstDigitRun_cons_nondigit a rest (by simpa using ha)] at h
      exact ih h

theorem firstDigitRun_none (s : PyStr) (h : ∀ c ∈ s, isDigitC c = false) :
    firstDigitRun s = none := by
  induction s with
  | nil => rfl
  | cons a rest ih =>
    rw [firstDigitRun_cons_nondigit a rest (h a (by simp))]
    exact ih fun c hc => h c (List.mem_cons_of_mem _ hc)

theorem digitsToInt_aux_nonneg : ∀ (ds : PyStr) (n : Int), 0 ≤ n →
    (∀ c ∈ ds, isDigitC c = true) →
    0 ≤ ds.foldl (fun n c => n * 10 + ((c.toNat : Int) - 48)) n := by
  intro ds
  induction ds with
  | nil => intro n hn _; simpa using hn
  | cons c rest ih =>
    intro n hn hall
    simp only [List.foldl_cons]
    apply ih
    · have hc : isDigitC c = true := hall c (by simp)
      simp only [isDigitC, Bool.and_eq_true, decide_eq_true_eq] at hc
      obtain ⟨h1, _⟩ := hc
      have h48 : (48 : Int) ≤ (c.toNat : Int) := by exact_mod_cast h1
      omega
    · intro x hx; exact hall x (List.mem_cons_of_mem _ hx)

theorem digitsToInt_nonneg (ds : PyStr) (h : ∀ c ∈ ds, isDigitC c = true) :
    0 ≤ digitsToInt ds :=
  digitsToInt_aux_nonneg ds 0 le_rfl h

theorem takeDigits_append (ds post : PyStr) (hds : ∀ c ∈ ds, isDigitC c = true)
    (hpost : ∀ c ∈ post.take 1, isDigitC c = false) :
    takeDigits (ds ++ post) = ds := by
  induction ds with
  | nil =>
    simp only [List.nil_append]
    cases post with
    | nil => rfl
    | cons p ps =>
      have hp := hpost p (by simp)
      simp [takeDigits, hp]
  | cons d rest ih =>
    have hd : isDigitC d = true := hds d (by simp)
    simp only [List.cons_append, takeDigits, if_pos hd]
    congr 1
    exact ih fun c hc => hds c (List.mem_cons_of_mem _ hc)

theorem firstDigitRun_of_leftmost : ∀ (pre ds post : PyStr), ds ≠ [] →
    (∀ c ∈ ds, isDigitC c = true) → (∀ c ∈ pre, isDigitC c = false) →
    (∀ c ∈ post.take 1, isDigitC c = false) →
    firstDigitRun (pre ++ ds ++ post) = some ds := by
  intro pre
  induction pre with
  | nil =>
    intro ds post hne hds _ hpost
    cases ds with
    | nil => exact absurd rfl hne
    | cons d rest =>
      have hd := hds d (by simp)
      simp only [List.nil_append, List.cons_append]
      rw [firstDigitRun_cons_digit d (rest ++ post) hd,
        takeDigits_append rest post (fun c hc => hds c (List.mem_cons_of_mem _ hc)) hpost]
  | cons p pre ih =>
    intro ds post hne hds hpre hpost
    have hp : isDigitC p = false := hpre p (by simp)
    simp only [List.cons_append]
    rw [firstDigitRun_cons_nondigit p (pre ++ ds ++ post) hp]
    exact ih ds post hne hds (fun c hc => hpre c (List.mem_cons_of_mem _ hc)) hpost

/-- Claim C2: whenever the response contains "toxicity score"
case-insensitively, the extracted score is the integer value of the
leftmost maximal decimal-digit run occurring anywhere in the response, even
when that run is unrelated to the toxicity phrase; without that substring
the score is the default 5. -/
theorem toxicity_score_first_digit_run (s : PyStr) :
    (containsSub (lit "toxicity score") (lowerL s) = false → extractToxicityScore s = 5) ∧
    (containsSub (lit "toxicity score") (lowerL s) = true →
      ∀ ds, IsLeftmostDigitRun s ds → extractToxicityScore s = digitsToInt ds) := by
  constructor
  · intro h; simp [extractToxicityScore, h]
  · intro h ds hds
    obtain ⟨hne, hall, pre, post, hs, hpre, hpost⟩ := hds
    subst hs
    unfold extractToxicityScore
    rw [if_pos h, firstDigitRun_of_leftmost pre ds post hne hall hpre hpost]

/-- Witness for C2, showing the documented imprecision as well: a year
occurring before the toxicity phrase is the run that gets parsed. -/
theorem toxicity_score_first_digit_run_witness :
    extractToxicityScore (lit "In 2024, the toxicity score is 3.") = 2024 := by
  have h := (toxicity_score_first_digit_run (lit "In 2024, the toxicity score is 3.")).2
    (by decide) (lit "2024")
    ⟨by decide, by decide, lit "In ", lit ", the toxicity score is 3.",
      by decide, by decide, by decide⟩
  rw [h]; decide

/-- Claim C10: the extracted score is never negative, equals 5 when the
toxicity phrase is absent or when the response has no digit at all, a
leading minus sign is ignored by the digit scan, and values above 10 are
reachable. -/
theorem toxicity_score_nonneg_default (s : PyStr) :
    0 ≤ extractToxicityScore s ∧
    (containsSub (lit "toxicity score") (lowerL s) = false → extractToxicityScore s = 5) ∧
    ((∀ c ∈ s, isDigitC c = false) → extractToxicityScore s = 5) ∧
    extractToxicityScore (lit "The toxicity score is -2.") = 2 ∧
    10 < extractToxicityScore (lit "The toxicity score is 99 out of 10.") := by
  refine ⟨?_, ?_, ?_, by decide, by decide⟩
  · unfold extractToxicityScore
    by_cases h : containsSub (lit "toxicity score") (lowerL s) = true
    · rw [if_pos h]
      cases hr : firstDigitRun s with
      | none => norm_num
      | some ds => exact digitsToInt_nonneg ds (firstDigitRun_all s ds hr)
    · rw [if_neg h]; norm_num
  · intro h; simp [extractToxicityScore, h]
  · intro h
    unfold extractToxicityScore
    rw [firstDigitRun_none s h]
    split <;> rfl

/-- Witness for C10 at a concrete digit-free response without the phrase. -/
theorem toxicity_score_nonneg_default_witness :
    0 ≤ extractToxicityScore (lit "hello there") ∧
    extractToxicityScore (lit "hello there") = 5 := by
  have h := toxicity_score_nonneg_default (lit "hello there")
  exact ⟨h.1, h.2.1 (by decide)⟩

/-- Claim C3: the bias tags are exactly the subsequence of the fixed
vocabulary whose lowercase category word occurs in the response, in the
fixed checking order without duplicates, and empty whenever the response
does not contain "bias". -/
theorem bias_tags_match_spec (s : PyStr) :
    extractBiasTags s = specBiasTags s ∧
    (extractBiasTags s).Sublist biasVocab ∧ (extractBiasTags s).Nodup := by
  have hmain : extractBiasTags s = specBiasTags s := by
    unfold extractBiasTags specBiasTags biasVocab
    by_cases hb : containsSub (lit "bias") (lowerL s) = true
    · rw [if_pos hb, if_pos hb]
      have h1 : lowerL (lit "Political") = lit "political" := by decide
      have h2 : lowerL (lit "Cultural") = lit "cultural" := by decide
      have h3 : lowerL (lit "Gender") = lit "gender" := by decide
      have h4 : lowerL (lit "Racial") = lit "racial" := by decide
      simp only [List.filter_cons, List.filter_nil, h1, h2, h3, h4]
      split_ifs <;> simp
    · rw [if_neg hb, if_neg hb]
  have hsub : (specBiasTags s).Sublist biasVocab := by
    unfold specBiasTags
    split
    · exact List.filter_sublist _
    · exact List.nil_sublist _
  have hvocab : biasVocab.Nodup := by decide
  exact ⟨hmain, hmain ▸ hsub, hmain ▸ hsub.nodup hvocab⟩

theorem foldl_entry (ts : List PyEntry) : ∀ acc : PyStr,
    ts.foldl (fun acc e => acc ++ entryText e ++ [' ']) acc
      = acc ++ joinTrail (ts.map entryText) := by
  induction ts with
  | nil => intro acc; simp [joinTrail]
  | cons e ts ih =>
    intro acc
    simp only [List.foldl_cons, List.map_cons, joinTrail]
    rw [ih]
    simp [List.append_assoc]

theorem joinTrail_eq_joinSpace (l : List PyStr) (h : l ≠ []) :
    joinTrail l = joinSpace l ++ [' '] := by
  induction l with
  | nil => exact absurd rfl h
  | cons t rest ih =>
    cases rest with
    | nil => simp [joinTrail, joinSpace]
    | cons u rest =>
      rw [show joinTrail (t :: u :: rest) = t ++ ' ' :: joinTrail (u :: rest) from rfl,
        ih (by simp),
        show joinSpace (t :: u :: rest) = t ++ ' ' :: joinSpace (u :: rest) from rfl]
      simp [List.append_assoc]

theorem stripL_append_space (l : PyStr) : stripL (l ++ [' ']) = stripL l := by
  have h : isPyWS ' ' = true := by decide
  simp [stripL, List.reverse_append, List.dropWhile_cons, h]

theorem get_full_eq (ts : List PyEntry) :
    get_full_transcript_text ts = stripL (joinSpace (ts.map entryText)) := by
  unfold get_full_transcript_text
  rw [foldl_entry ts []]
  simp only [List.nil_append]
  cases ts with
  | nil => rfl
  | cons e es =>
    rw [joinTrail_eq_joinSpace ((e :: es).map entryText) (by simp), stripL_append_space]

/-- Counterexample to claim C5 as stated: an attribute-bearing entry with
no text attribute contributes the string form of the entry itself, not the
empty string the claimed contract prescribes. -/
theorem transcript_text_claim_counterexample :
    get_full_transcript_text [PyEntry.obj none none "SnippetObject"] ≠
      claimTranscriptText [PyEntry.obj none none "SnippetObject"] := by decide

/-- Claim C5 as amended: the result is the entry texts joined by a single
separating space with the final result stripped, where a mapping entry
defaults its text to the empty string and a non-mapping entry without a
text attribute falls back to the string form of the entry itself. -/
theorem transcript_text_join_strip (ts : List PyEntry) :
    get_full_transcript_text ts = stripL (joinSpace (ts.map entryTextAmended)) := by
  have h : ts.map entryText = ts.map entryTextAmended := by
    induction ts with
    | nil => rfl
    | cons e es ih =>
      cases e with
      | dict t? s? => simp [entryText, entryTextAmended, ih]
      | obj t? s? r => cases t? <;> simp [entryText, entryTextAmended, ih]
  rw [get_full_eq, h]

/-- Claim C6: presenting the same content as mapping-shaped entries or as
attribute-bearing objects yields the identical transcript text. -/
theorem transcript_shapes_equivalent (content : List (Int × String)) (r : String) :
    get_full_transcript_text (content.map fun p => PyEntry.dict (some p.2) (some p.1)) =
    get_full_transcript_text (content.map fun p => PyEntry.obj (some p.2) (some p.1) r) := by
  have h : (content.map fun p => PyEntry.dict (some p.2) (some p.1)).map entryText
      = (content.map fun p => PyEntry.obj (some p.2) (some p.1) r).map entryText := by
    simp only [List.map_map]
    rfl
  rw [get_full_eq, get_full_eq, h]

/-- Claim C9: the prompt embeds exactly the first 4000 characters of the
transcript text between the fixed head and tail, so at most 4000
characters of transcript appear in it; shorter transcripts are embedded
whole, longer ones are truncated rather than failing. -/
theorem prompt_embeds_truncated (t : PyStr) :
    (buildPrompt t).length = promptHead.length + min t.length 4000 + promptTail.length ∧
    (t.take 4000).length ≤ 4000 ∧
    (t.length ≤ 4000 → buildPrompt t = promptHead ++ t ++ promptTail) ∧
    ∃ dropped, t = t.take 4000 ++ dropped ∧
      buildPrompt t = promptHead ++ t.take 4000 ++ promptTail := by
  refine ⟨?_, ?_, ?_, t.drop 4000, (List.take_append_drop 4000 t).symm, rfl⟩
  · simp only [buildPrompt, List.length_append, List.length_take]
    omega
  · simp only [List.length_take]
    omega
  · intro h
    simp [buildPrompt, List.take_of_length_le h]

/-- Witness for C9: a short transcript is embedded whole, and the truncated
portion of an overlong transcript is within the budget. -/
theorem prompt_embeds_truncated_witness :
    buildPrompt (lit "short text") = promptHead ++ lit "short text" ++ promptTail ∧
    ((List.replicate 4001 'a').take 4000).length ≤ 4000 := by
  constructor
  · exact (prompt_embeds_truncated (lit "short text")).2.2.1 (by decide)
  · exact (prompt_embeds_truncated (List.replicate 4001 'a')).2.1

theorem isPrefixOfC_append_false : ∀ (tail pat s : PyStr),
    isPrefixOfC (pat.take tail.length) tail = false →
    isPrefixOfC pat (tail ++ s) = false := by
  intro tail
  induction tail with
  | nil => intro pat s h; simp [isPrefixOfC] at h
  | cons c tl ih =>
    intro pat s h
    cases pat with
    | nil => simp [isPrefixOfC] at h
    | cons p ps =>
      simp only [List.length_cons, List.take_succ_cons, isPrefixOfC, List.cons_append] at h ⊢
      by_cases hpc : p = c
      · rw [if_pos hpc] at h ⊢
        exact ih ps s h
      · rw [if_neg hpc]

theorem containsSub_append_of_tails : ∀ (pre pat s : PyStr),
    (∀ tail ∈ pre.tails, tail ≠ [] → isPrefixOfC (pat.take tail.length) tail = false) →
    containsSub pat (pre ++ s) = containsSub pat s := by
  intro pre
  induction pre with
  | nil => intro pat s _; rfl
  | cons c pre ih =>
    intro pat s h
    have h1 : isPrefixOfC pat ((c :: pre) ++ s) = false :=
      isPrefixOfC_append_false (c :: pre) pat s
        (h (c :: pre) (by simp [List.mem_tails]) (by simp))
    have h2 := ih pat s fun tail htail hne =>
      h tail ((List.mem_tails _ _).mpr
        (((List.mem_tails _ _).mp htail).trans (List.suffix_cons c pre))) hne
    calc containsSub pat ((c :: pre) ++ s)
        = (isPrefixOfC pat ((c :: pre) ++ s) || containsSub pat (pre ++ s)) := rfl
      _ = containsSub pat s := by rw [h1, Bool.false_or, h2]

theorem containsSub_error_wrap (pat m : PyStr)
    (h : ∀ tail ∈ (lit "error analyzing content: ").tails, tail ≠ [] →
        isPrefixOfC (pat.take tail.length) tail = false) :
    containsSub pat (lowerL (lit "Error analyzing content: " ++ m)) =
      containsSub pat (lowerL m) := by
  have hmap : lowerL (lit "Error analyzing content: " ++ m)
      = lit "error analyzing content: " ++ lowerL m := by
    unfold lowerL
    rw [List.map_append]
    congr 1
  rw [hmap, containsSub_append_of_tails _ pat (lowerL m) h]

/-- Counterexample to claim C1 as stated: on the path where the fetched
result has a tracks key whose track list is empty, the program prints a
diagnostic and returns without emitting any JSON document. -/
theorem empty_tracks_emits_nothing :
    mainRun (lit "5NojPQTNx9s") (fun _ => Except.ok (lit "response")) false
      (Except.ok (FetchOk.wrapperDict [])) = MainOutput.noOutput := rfl

/-- Claim C1 as amended: for every execution reaching the fetch step other
than the present-but-empty tracks path, the program emits a JSON document —
the reduced error record when the fetch raised, yielded no entries, or the
attribute-tracks shape raised while being indexed, and the full record
otherwise. -/
theorem main_emits_json_except_empty_tracks (vid : PyStr)
    (svc : PyStr → Except PyStr PyStr) (ar : Bool) (fetched : Except PyStr FetchOk)
    (h : fetched ≠ Except.ok (FetchOk.wrapperDict [])) :
    mainRun vid svc ar fetched ≠ MainOutput.noOutput := by
  cases fetched with
  | error e => exact fun hc => MainOutput.noConfusion hc
  | ok fo =>
    cases fo with
    | empty => exact fun hc => MainOutput.noConfusion hc
    | wrapperDict tracks =>
      cases tracks with
      | nil => exact absurd rfl h
      | cons t ts => exact fun hc => MainOutput.noConfusion hc
    | wrapperAttr tracks =>
      cases tracks with
      | nil => exact fun hc => MainOutput.noConfusion hc
      | cons t ts =>
        cases t with
        | none => exact fun hc => MainOutput.noConfusion hc
        | some tr => exact fun hc => MainOutput.noConfusion hc
    | plainEntries e es => exact fun hc => MainOutput.noConfusion hc

/-- Witness for the amended C1 on the empty-result-list path. -/
theorem main_emits_json_except_empty_tracks_witness :
    mainRun (lit "v") (fun _ => Except.ok (lit "resp")) false (Except.ok FetchOk.empty)
      ≠ MainOutput.noOutput :=
  main_emits_json_except_empty_tracks (lit "v") (fun _ => Except.ok (lit "resp")) false
    (Except.ok FetchOk.empty) (by simp)

/-- Claim C4: a completion-service exception with message m is converted to
the in-band string rather than propagated, the pipeline continues, and the
final output is the full-shaped record carrying that string verbatim in its
analysis field, with score 5 and no tags whenever m contains neither
"toxicity score" nor "bias". -/
theorem analyzer_error_absorbed (vid m : PyStr) (e : PyEntry) (es : List PyEntry)
    (hTox : containsSub (lit "toxicity score") (lowerL m) = false)
    (hBias : containsSub (lit "bias") (lowerL m) = false) :
    analyze_content (fun _ => Except.error m) (get_full_transcript_text (e :: es)) vid
      = lit "Error analyzing content: " ++ m ∧
    mainRun vid (fun _ => Except.error m) false (Except.ok (FetchOk.plainEntries e es))
      = MainOutput.fullRec (buildFullRecord vid (lit "Error analyzing content: " ++ m)) ∧
    (buildFullRecord vid (lit "Error analyzing content: " ++ m)).toxicityScore = 5 ∧
    (buildFullRecord vid (lit "Error analyzing content: " ++ m)).biasTags = [] ∧
    (buildFullRecord vid (lit "Error analyzing content: " ++ m)).analysis
      = lit "Error analyzing content: " ++ m := by
  refine ⟨rfl, rfl, ?_, ?_, rfl⟩
  · show extractToxicityScore (lit "Error analyzing content: " ++ m) = 5
    have h := containsSub_error_wrap (lit "toxicity score") m (by decide)
    simp [extractToxicityScore, h, hTox]
  · show extractBiasTags (lit "Error analyzing content: " ++ m) = []
    have h := containsSub_error_wrap (lit "bias") m (by decide)
    simp [extractBiasTags, h, hBias]

/-- Witness for C4 at a concrete exception message. -/
theorem analyzer_error_absorbed_witness :
    (buildFullRecord (lit "v") (lit "Error analyzing content: " ++ lit "boom")).toxicityScore
      = 5 ∧
    (buildFullRecord (lit "v") (lit "Error analyzing content: " ++ lit "boom")).biasTags
      = [] := by
  have h := analyzer_error_absorbed (lit "v") (lit "boom")
    (PyEntry.dict (some "hi") none) [] (by decide) (by decide)
  exact ⟨h.2.2.1, h.2.2.2.1⟩

/-- Claim C7: when assembling or serializing the structured record raises
after the analysis text was obtained, the printed record is still
full-shaped, with score 5, bias tags exactly Unknown, and the real
analysis text unchanged. -/
theorem assembly_failure_fallback (vid : PyStr) (svc : PyStr → Except PyStr PyStr)
    (e : PyEntry) (es : List PyEntry) :
    ∃ r : AnalysisResult,
      mainRun vid svc true (Except.ok (FetchOk.plainEntries e es)) = MainOutput.fullRec r ∧
      r.toxicityScore = 5 ∧ r.biasTags = ["Unknown"] ∧
      r.analysis = analyze_content svc (get_full_transcript_text (e :: es)) vid ∧
      r.videoId = vid ∧ r.emotions = emotionsConst :=
  ⟨fallbackRecord vid (analyze_content svc (get_full_transcript_text (e :: es)) vid),
    rfl, rfl, rfl, rfl, rfl, rfl⟩

/-- Claim C8: a fetch yielding zero entries produces exactly the reduced
no-transcript error record, and no full record is emitted. -/
theorem empty_fetch_error_record (vid : PyStr) (svc : PyStr → Except PyStr PyStr)
    (ar : Bool) :
    mainRun vid svc ar (Except.ok FetchOk.empty)
      = MainOutput.errRec (lit "No transcript data returned") vid ∧
    ∀ r : AnalysisResult, mainRun vid svc ar (Except.ok FetchOk.empty)
      ≠ MainOutput.fullRec r :=
  ⟨rfl, fun _ hc => MainOutput.noConfusion hc⟩

/-- Witness for C8 at the default video identifier. -/
theorem empty_fetch_error_record_witness :
    mainRun (lit "5NojPQTNx9s") (fun _ => Except.ok (lit "resp")) false
      (Except.ok FetchOk.empty)
      = MainOutput.errRec (lit "No transcript data returned") (lit "5NojPQTNx9s") :=
  (empty_fetch_error_record (lit "5NojPQTNx9s") (fun _ => Except.ok (lit "resp")) false).1
